import Mathlib

/-!
Verification development for the durable message-stream consumer core of the
tiiuae/nats-server repository.  The consumer implementation itself is not part
of the shipped sources (only its test suite is), so the operations below are
modelled from the natural-language specification, with the regression tests of
`server/jetstream_consumer_test.go` pinning the concrete behaviour.
-/

namespace NatsConsumer

/-! ## Subject tokenization and filter matching (spec 4.1) -/

/-- Splits a character list into dot-separated tokens, accumulating the
characters of the current token in reverse. -/
def tokenizeAux : List Char → List Char → List String
  | acc, [] => [String.mk acc.reverse]
  | acc, c :: cs =>
    if c = '.' then String.mk acc.reverse :: tokenizeAux [] cs
    else tokenizeAux (c :: acc) cs

/-- Modelled from the spec: `tokenizeSubjectIntoSlice` — a subject is split into
tokens at every `.` (the implementation of the tokenizer is not under `src/`). -/
def tokenizeSubject (s : String) : List String := tokenizeAux [] s.data

/-- Modelled from the spec: matching a single (possibly wildcarded) filter,
token-wise, against a literal subject.  A literal token matches by equality,
`*` matches exactly one token, `>` matches one or more trailing tokens and is
only legal as the last token. -/
def matchTokens : List String → List String → Bool
  | [], [] => true
  | [], _ :: _ => false
  | _ :: _, [] => false
  | f :: fs, s :: ss =>
    if f = ">" then fs.isEmpty
    else if f = "*" then matchTokens fs ss
    else (f == s) && matchTokens fs ss

/-- Declarative semantics of single-filter matching, straight from the spec's
words: literals match by equality, `*` matches exactly one token, `>` matches
one or more trailing tokens (and only as the final token). -/
inductive MatchTok : List String → List String → Prop
  | nil : MatchTok [] []
  | fwc (s : String) (ss : List String) : MatchTok [">"] (s :: ss)
  | pwc {fs ss : List String} (s : String) : MatchTok fs ss → MatchTok ("*" :: fs) (s :: ss)
  | lit {fs ss : List String} (f : String) : f ≠ "*" → f ≠ ">" → MatchTok fs ss →
      MatchTok (f :: fs) (f :: ss)

/-- Modelled from the spec: `isFilteredMatch` — true iff at least one filter entry
matches the subject; the empty filter set matches everything (the consumer source
holding this function is not under `src/`). -/
def isFilteredMatch (filters : List String) (subject : String) : Bool :=
  filters.isEmpty ||
    filters.any (fun f => matchTokens (tokenizeSubject f) (tokenizeSubject subject))

/-- Modelled from the spec: `is_equal_or_subset` helper on token lists — whether the
first (filter) pattern denotes a set of subjects included in the set denoted by the
second pattern, both possibly wildcarded. -/
def subsetMatchTokenized : List String → List String → Bool
  | [], [] => true
  | [], _ :: _ => false
  | _ :: _, [] => false
  | f :: fs, t :: ts =>
    if t = ">" then true
    else if f = ">" then false
    else if f = "*" then (if t = "*" then subsetMatchTokenized fs ts else false)
    else if t = "*" then subsetMatchTokenized fs ts
    else (f == t) && subsetMatchTokenized fs ts

/-- Modelled from the spec: `isEqualOrSubsetMatch` — true iff the given subject
(possibly wildcarded) is equal to, or a superset of, at least one of the consumer's
filters. -/
def isEqualOrSubsetMatch (filters : List String) (subject : String) : Bool :=
  filters.any (fun f =>
    (tokenizeSubject f == tokenizeSubject subject) ||
      subsetMatchTokenized (tokenizeSubject f) (tokenizeSubject subject))

/-- Modelled from the spec: collision of two (possibly wildcarded) subject patterns —
whether some concrete subject is matched by both.  The work-queue uniqueness check of
the consumer source (not under `src/`) uses this notion, as pinned by
`TestJetStreamConsumerWorkQueuePolicyOverlap` where `foo.bar.*` and `foo.*.bar`
must be rejected as overlapping. -/
def subjectsCollide : List String → List String → Bool
  | [], [] => true
  | [], _ :: _ => false
  | _ :: _, [] => false
  | f :: fs, t :: ts =>
    if f = ">" ∨ t = ">" then true
    else if f = "*" ∨ t = "*" then subjectsCollide fs ts
    else (f == t) && subjectsCollide fs ts

/-- Two filter sets collide when some filter of the first collides with some filter
of the second. -/
def filtersCollide (as bs : List String) : Bool :=
  as.any (fun a => bs.any (fun b => subjectsCollide (tokenizeSubject a) (tokenizeSubject b)))

/-- The overlap predicate exactly as the claim words it: a new consumer's filters
overlap a sibling's when one side's filter is equal to or a superset of one of the
other side's filters, via `isEqualOrSubsetMatch` in either direction.  Stated from the
spec's words so it can be compared against the collision-based check that the
regression test pins down. -/
def overlapEqualOrSubset (newFilters sibFilters : List String) : Bool :=
  newFilters.any (fun f => isEqualOrSubsetMatch sibFilters f) ||
    sibFilters.any (fun f => isEqualOrSubsetMatch newFilters f)

/-! ## Ack/redelivery engine (spec 4.5) -/

/-- Modelled from the spec: one pending delivery record of the redelivery engine. -/
structure PendingRecord where
  streamSeq : Nat
  numDelivered : Nat
  nextRetryAt : Nat
deriving DecidableEq

/-- Modelled from the spec: the wait before the next redelivery once a message has
been delivered `numDelivered` times — `backoff[min(numDelivered - 1, len - 1)]`, or
`ackWait` when the backoff table is empty. -/
def backoffDur (backoff : List Nat) (ackWait : Nat) (numDelivered : Nat) : Nat :=
  if backoff.isEmpty then ackWait
  else backoff.getD (min (numDelivered - 1) (backoff.length - 1)) 0

/-- Modelled from the spec: `record_delivery` — increment the delivery count and
schedule the next retry after the corresponding backoff step. -/
def recordDelivery (backoff : List Nat) (ackWait : Nat) (now : Nat) (p : PendingRecord) :
    PendingRecord :=
  { p with
    numDelivered := p.numDelivered + 1
    nextRetryAt := now + backoffDur backoff ackWait (p.numDelivered + 1) }

/-- Modelled from the spec: the redelivery timer fires at the earliest
`nextRetryAt` across all pending entries; the heap must not be aligned to the
slowest entry. -/
def nextTimer : List PendingRecord → Option Nat
  | [] => none
  | p :: ps =>
    match nextTimer ps with
    | none => some p.nextRetryAt
    | some t => some (min p.nextRetryAt t)

/-- The time of the `(k+1)`-st delivery attempt of a message published at `pub`,
assuming every due redelivery is performed as soon as its backoff step elapses. -/
def deliveryTime (backoff : List Nat) (ackWait : Nat) (pub : Nat) : Nat → Nat
  | 0 => pub
  | k + 1 => deliveryTime backoff ackWait pub k + backoffDur backoff ackWait (k + 1)

/-! ## Consumer lifecycle and work-queue exclusivity (spec 4.6) -/

/-- Modelled from the spec: the action attached to a consumer-create request. -/
inductive ConsumerAction
  | create
  | update
  | createOrUpdate
deriving DecidableEq

/-- Modelled from the spec: stream retention policies relevant to the consumer core. -/
inductive Retention
  | limits
  | interest
  | workQueue
deriving DecidableEq

/-- Modelled from the spec: the consumer-configuration fields the lifecycle claims
depend on.  The identity is either a `durable` name (survives restart) or, when
`durable` is empty, an ephemeral `name` — exactly one of the two is set. -/
structure ConsumerConfig where
  durable : String
  name : String
  filterSubjects : List String
  priorityGroups : List String
  ackWait : Nat
  maxDeliver : Int
deriving DecidableEq

/-- Modelled from the spec: a consumer's identity — the durable name when set,
otherwise the ephemeral name. -/
def ConsumerConfig.cname (c : ConsumerConfig) : String :=
  if c.durable = "" then c.name else c.durable

/-- Whether the consumer is identified by a durable name. -/
def ConsumerConfig.isDurable (c : ConsumerConfig) : Bool := c.durable != ""

/-- Modelled from the spec: a stream as the consumer-lifecycle operations see it. -/
structure StreamModel where
  retention : Retention
  consumers : List ConsumerConfig
deriving DecidableEq

/-- Modelled from the spec: the typed API errors of the lifecycle and admin
operations. -/
inductive ApiErr
  | wqConsumerNotUnique
  | consumerAlreadyExists
  | consumerDoesNotExist
  | streamNotFound
  | consumerNotFound
  | invalidJSON
  | invalidGroupName
  | invalidPriorityGroup
deriving DecidableEq

/-- Looks up a consumer by identity. -/
def findConsumer (cs : List ConsumerConfig) (name : String) : Option ConsumerConfig :=
  cs.find? (fun c => c.cname == name)

/-- Modelled from the spec: the work-queue exclusivity scan — do the proposed filters
collide with the filters of any other consumer on the stream? -/
def subjectsOverlapAny (filters : List String) (name : String)
    (siblings : List ConsumerConfig) : Bool :=
  siblings.any (fun o => (o.cname != name) && filtersCollide filters o.filterSubjects)

/-- Replaces the configuration of the consumer with the same identity. -/
def replaceConsumer (cs : List ConsumerConfig) (cfg : ConsumerConfig) :
    List ConsumerConfig :=
  cs.map (fun c => if c.cname == cfg.cname then cfg else c)

/-- Modelled from the spec: `addConsumerWithAction` — work-queue exclusivity first,
then the create/update action semantics: `create` succeeds only on a fresh identity,
or on a durable identity whose existing config is byte-identical; a named ephemeral
always errors on create over an existing consumer (it auto-cleans-up and is never
re-creatable in place), as the action tests pin; `update` requires the identity to
exist. -/
def addConsumerWithAction (m : StreamModel) (cfg : ConsumerConfig)
    (action : ConsumerAction) : Except ApiErr StreamModel :=
  if m.retention = Retention.workQueue ∧
      subjectsOverlapAny cfg.filterSubjects cfg.cname m.consumers = true then
    .error .wqConsumerNotUnique
  else
    match findConsumer m.consumers cfg.cname, action with
    | some existing, .create =>
      if cfg.isDurable = true ∧ existing = cfg then .ok m
      else .error .consumerAlreadyExists
    | none, .create => .ok ⟨m.retention, m.consumers ++ [cfg]⟩
    | some _, .update => .ok ⟨m.retention, replaceConsumer m.consumers cfg⟩
    | none, .update => .error .consumerDoesNotExist
    | some _, .createOrUpdate => .ok ⟨m.retention, replaceConsumer m.consumers cfg⟩
    | none, .createOrUpdate => .ok ⟨m.retention, m.consumers ++ [cfg]⟩

/-! ## Pinned-client priority admission (spec 4.4) -/

/-- Modelled from the spec: a waiting pull request of a pinned-client group; `pinId`
is the request's pin association — either carried in the request or assigned to it
when it became the pin-holder. -/
structure PullRequest where
  reply : String
  pinId : Option String
deriving DecidableEq

/-- Outcome of the server towards one pull request: a delivery carrying the
`Nats-Pin-Id` header, or a status-423 (wrong pin) response. -/
inductive AdmitResult
  | deliver (pinHeader : String)
  | status423
deriving DecidableEq

/-- Modelled from the spec: the per-group pin state machine — the active pin (id and
holder), a counter generating fresh pin ids, the holder at the last clear (so
re-assignment can skip it), and every id issued so far. -/
structure PinMachine where
  pin : Option (String × String)
  counter : Nat
  prevHolder : Option String
  issued : List String
deriving DecidableEq

/-- Server-generated opaque pin tokens, modelled as nonempty strings that are
pairwise distinct across counter values. -/
def pinIdOf (n : Nat) : String := String.mk (List.replicate (n + 1) 'p')

/-- A request whose pin association does not match the active pin — or that carries a
pin id while no pin is active — is answered with status 423. -/
def wrongPin (m : PinMachine) (r : PullRequest) : Bool :=
  match r.pinId, m.pin with
  | some rid, some pc => rid != pc.1
  | some _, none => true
  | none, _ => false

/-- Modelled from the spec: arrival of a pull request — a non-matching pin id is
answered with status 423 at once, otherwise the request joins the waiting queue. -/
def enqueueRequest (m : PinMachine) (q : List PullRequest) (r : PullRequest) :
    Option AdmitResult × List PullRequest :=
  if wrongPin m r then (some .status423, q) else (none, q ++ [r])

/-- Result of offering one deliverable message to the waiting queue. -/
structure DeliverOutcome where
  responses : List (String × AdmitResult)
  delivered : Option (String × String)
  machine : PinMachine
  rest : List PullRequest
deriving DecidableEq

/-- Modelled from the spec: a newly deliverable message is offered to the waiting
queue in order — stale-pin entries are answered 423 and leave the queue, requests
without the pin keep waiting while a pin is active, and with no active pin the first
request that is not the previous holder becomes the new pin-holder and receives the
message with a fresh pin id in the `Nats-Pin-Id` header. -/
def deliverMsg (m : PinMachine) : List PullRequest → DeliverOutcome
  | [] => ⟨[], none, m, []⟩
  | r :: rs =>
    if wrongPin m r then
      let out := deliverMsg m rs
      ⟨(r.reply, .status423) :: out.responses, out.delivered, out.machine, out.rest⟩
    else
      match m.pin with
      | some pc =>
        if r.pinId = some pc.1 then ⟨[], some (r.reply, pc.1), m, rs⟩
        else
          let out := deliverMsg m rs
          ⟨out.responses, out.delivered, out.machine, r :: out.rest⟩
      | none =>
        if m.prevHolder = some r.reply then
          let out := deliverMsg m rs
          ⟨out.responses, out.delivered, out.machine, r :: out.rest⟩
        else
          ⟨[], some (r.reply, pinIdOf m.counter),
            ⟨some (pinIdOf m.counter, r.reply), m.counter + 1, m.prevHolder,
              pinIdOf m.counter :: m.issued⟩, rs⟩

/-- Modelled from the spec: clearing the pin (explicit unpin, TTL expiry or
max-deliver exhaustion), remembering the old holder so re-assignment skips it. -/
def unpinMachine (m : PinMachine) : PinMachine :=
  match m.pin with
  | none => m
  | some pc => ⟨none, m.counter, some pc.2, m.issued⟩

/-- Well-formedness of the pin machine: issued ids all predate the counter and the
active pin id is nonempty. -/
def PinWF (m : PinMachine) : Prop :=
  (∀ i ∈ m.issued, i.length ≤ m.counter) ∧ (∀ pc ∈ m.pin, pc.1 ≠ "")

/-! ## Overflow priority admission (spec 4.4) -/

/-- Modelled from the spec: an overflow pull request with its optional admission
thresholds. -/
structure OverflowReq where
  reply : String
  minPending : Option Nat
  minAckPending : Option Nat
deriving DecidableEq

/-- Modelled from the spec: overflow eligibility — every set threshold must be met by
the consumer's current counters; a request with no thresholds is always eligible. -/
def overflowEligible (numPending numAckPending : Nat) (r : OverflowReq) : Bool :=
  (match r.minPending with
   | none => true
   | some mp => decide (mp ≤ numPending)) &&
  (match r.minAckPending with
   | none => true
   | some ma => decide (ma ≤ numAckPending))

/-- Modelled from the spec: offering one deliverable message to the FIFO queue — the
first eligible request is served and leaves the queue; ineligible requests keep
waiting and are re-evaluated at the next state change with the new counters. -/
def serveNext (numPending numAckPending : Nat) :
    List OverflowReq → Option OverflowReq × List OverflowReq
  | [] => (none, [])
  | r :: rs =>
    if overflowEligible numPending numAckPending r then (some r, rs)
    else
      let out := serveNext numPending numAckPending rs
      (out.1, r :: out.2)

/-! ## Pedantic validation (spec 4.6) -/

/-- Modelled from the spec: the stream-level consumer limits a config may inherit. -/
structure StreamConsumerLimits where
  inactiveThreshold : Option Nat
  maxAckPending : Option Nat
deriving DecidableEq

/-- Modelled from the spec: the consumer-config fields involved in pedantic-mode
validation; `none` means the caller did not set the field. -/
structure PedanticConfig where
  inactiveThreshold : Option Nat
  maxAckPending : Option Nat
  backoff : List Nat
  ackWait : Option Nat
  maxRequestBatch : Option Nat
deriving DecidableEq

/-- Whether a stream- or server-level default would be applied to this config: a
consumer field derived from a stream `ConsumerLimits` default, a backoff table
without an explicit ack wait, or a batch bound derived from the stream's
`max_request_batch` limit. -/
def needsDefault (lim : StreamConsumerLimits) (srvMaxRequestBatch : Option Nat)
    (c : PedanticConfig) : Bool :=
  (lim.inactiveThreshold.isSome && c.inactiveThreshold.isNone) ||
  (lim.maxAckPending.isSome && c.maxAckPending.isNone) ||
  (!c.backoff.isEmpty && c.ackWait.isNone) ||
  (srvMaxRequestBatch.isSome && c.maxRequestBatch.isNone)

/-- The first option if set, otherwise the fallback. -/
def orDefault (v d : Option Nat) : Option Nat :=
  match v with
  | some x => some x
  | none => d

/-- Modelled from the spec: silently applying the stream- and server-level defaults
to the unset fields. -/
def applyDefaults (lim : StreamConsumerLimits) (srvMaxRequestBatch : Option Nat)
    (c : PedanticConfig) : PedanticConfig :=
  { inactiveThreshold := orDefault c.inactiveThreshold lim.inactiveThreshold
    maxAckPending := orDefault c.maxAckPending lim.maxAckPending
    backoff := c.backoff
    ackWait := orDefault c.ackWait
      (if c.backoff.isEmpty then none else some (c.backoff.headD 0))
    maxRequestBatch := orDefault c.maxRequestBatch srvMaxRequestBatch }

/-- The error message produced in pedantic mode; it contains the substring
`pedantic`. -/
def pedanticErrMsg : String := "pedantic mode: default values would be applied"

/-- Modelled from the spec: consumer-config validation under the `pedantic` request
flag — reject with an error mentioning `pedantic` whenever a default would apply;
without the flag accept the same config with the defaults silently applied. -/
def checkPedantic (pedantic : Bool) (lim : StreamConsumerLimits)
    (srvMaxRequestBatch : Option Nat) (c : PedanticConfig) :
    Except String PedanticConfig :=
  if pedantic && needsDefault lim srvMaxRequestBatch c then .error pedanticErrMsg
  else .ok (applyDefaults lim srvMaxRequestBatch c)

/-! ## Unpin admin operation (spec 4.6) -/

/-- An active pin assignment, keyed by stream, consumer and group. -/
structure PinEntry where
  stream : String
  consumer : String
  group : String
  pinId : String
deriving DecidableEq

/-- The broker state the unpin admin operation works on. -/
structure JSContext where
  streams : List (String × StreamModel)
  pins : List PinEntry
deriving DecidableEq

/-- Looks up a stream by name. -/
def lookupStream (ctx : JSContext) (s : String) : Option StreamModel :=
  (ctx.streams.find? (fun p => p.1 == s)).map (fun p => p.2)

/-- Characters legal in a priority-group name. -/
def validGroupNameChar (c : Char) : Bool :=
  c.isAlphanum || c == '/' || c == '=' || c == '-' || c == '_'

/-- Modelled from the spec: `validGroupName` — nonempty names over a restricted
charset with a bounded length (the tests accept a 16-character name and reject a
27-character one, and reject spaces and line terminators). -/
def validGroupName (g : String) : Bool :=
  decide (0 < g.length) && decide (g.length ≤ 16) && g.data.all validGroupNameChar

/-- Modelled from the spec: clearing the pin of one (stream, consumer, group). -/
def clearPin (ctx : JSContext) (s c g : String) : JSContext :=
  ⟨ctx.streams,
    ctx.pins.filter (fun e => !(e.stream == s && e.consumer == c && e.group == g))⟩

/-- Modelled from the spec: the unpin admin operation with its typed errors —
missing stream, missing consumer, empty group, malformed group name, group not
among the consumer's priority groups; otherwise the group's pin is cleared. -/
def unpinAdmin (ctx : JSContext) (s c g : String) : Except ApiErr JSContext :=
  match lookupStream ctx s with
  | none => .error .streamNotFound
  | some st =>
    match findConsumer st.consumers c with
    | none => .error .consumerNotFound
    | some cns =>
      if g = "" then .error .invalidJSON
      else if validGroupName g = false then .error .invalidGroupName
      else if g ∈ cns.priorityGroups then .ok (clearPin ctx s c g)
      else .error .invalidPriorityGroup

/-! ## Theorems: subject filter matching -/

theorem matchTokens_iff (fs : List String) :
    ∀ ss, matchTokens fs ss = true ↔ MatchTok fs ss := by
  induction fs with
  | nil =>
    intro ss
    cases ss with
    | nil => exact iff_of_true rfl MatchTok.nil
    | cons s ss' =>
      constructor
      · intro h; exact absurd h (by simp [matchTokens])
      · intro h; cases h
  | cons f fs' ih =>
    intro ss
    cases ss with
    | nil =>
      constructor
      · intro h; exact absurd h (by simp [matchTokens])
      · intro h; cases h
    | cons s ss' =>
      constructor
      · intro h
        simp only [matchTokens] at h
        by_cases hf : f = ">"
        · rw [if_pos hf] at h
          rw [List.isEmpty_iff] at h
          subst hf h
          exact MatchTok.fwc s ss'
        · by_cases hw : f = "*"
          · rw [if_neg hf, if_pos hw] at h
            subst hw
            exact MatchTok.pwc s ((ih ss').mp h)
          · rw [if_neg hf, if_neg hw, Bool.and_eq_true, beq_iff_eq] at h
            obtain ⟨hfs, hm⟩ := h
            subst hfs
            exact MatchTok.lit f hw hf ((ih ss').mp hm)
      · intro h
        cases h with
        | fwc => simp [matchTokens]
        | pwc s hm => simp [matchTokens, (ih ss').mpr hm]
        | lit f h1 h2 hm => simp [matchTokens, h1, h2, (ih ss').mpr hm]

/-- Claim C7: `isFilteredMatch` returns true iff at least one filter entry matches
the subject — a literal filter matches by equality, `*` matches exactly one token,
`>` matches one or more trailing tokens — and for the empty filter set it returns
true for every subject. -/
theorem isFilteredMatch_spec (filters : List String) (subject : String) :
    isFilteredMatch filters subject = true ↔
      (filters = [] ∨
        ∃ f ∈ filters, MatchTok (tokenizeSubject f) (tokenizeSubject subject)) := by
  unfold isFilteredMatch
  simp [List.isEmpty_iff, matchTokens_iff]

/-- Claim C10: on the empty filter set, `isEqualOrSubsetMatch` returns false for
every subject even though `isFilteredMatch` returns true for every subject on that
same set, so an unfiltered consumer never counts as overlapping under this
predicate. -/
theorem isEqualOrSubsetMatch_empty_spec (subject : String) :
    isEqualOrSubsetMatch [] subject = false ∧ isFilteredMatch [] subject = true :=
  ⟨rfl, rfl⟩

/-! ## Theorems: redelivery backoff -/

theorem nextTimer_eq_none (ps : List PendingRecord) : nextTimer ps = none ↔ ps = [] := by
  cases ps with
  | nil => simp [nextTimer]
  | cons p ps' =>
    simp only [nextTimer]
    cases nextTimer ps' <;> simp

theorem nextTimer_min (ps : List PendingRecord) (t : Nat) (h : nextTimer ps = some t) :
    (∃ p ∈ ps, p.nextRetryAt = t) ∧ ∀ p ∈ ps, t ≤ p.nextRetryAt := by
  induction ps generalizing t with
  | nil => simp [nextTimer] at h
  | cons p ps' ih =>
    simp only [nextTimer] at h
    cases hps : nextTimer ps' with
    | none =>
      rw [hps] at h
      have hnil : ps' = [] := (nextTimer_eq_none ps').mp hps
      subst hnil
      simp at h
      subst h
      simp
    | some t' =>
      rw [hps] at h
      simp at h
      obtain ⟨hex, hall⟩ := ih t' hps
      subst h
      constructor
      · rcases Nat.le_total p.nextRetryAt t' with hle | hle
        · exact ⟨p, List.mem_cons_self p ps', (Nat.min_eq_left hle).symm⟩
        · obtain ⟨q, hq, hqt⟩ := hex
          exact ⟨q, List.mem_cons_of_mem p hq, by rw [Nat.min_eq_right hle, hqt]⟩
      · intro q hq
        rcases List.mem_cons.mp hq with rfl | hq'
        · exact Nat.min_le_left _ _
        · exact le_trans (Nat.min_le_right _ _) (hall q hq')

theorem deliveryTime_sum (backoff : List Nat) (ackWait : Nat) (pub : Nat)
    (hne : backoff ≠ []) :
    ∀ k, k ≤ backoff.length →
      deliveryTime backoff ackWait pub k = pub + (backoff.take k).sum := by
  intro k
  induction k with
  | zero => simp [deliveryTime]
  | succ k ih =>
    intro hk
    have hk' : k < backoff.length := Nat.lt_of_succ_le hk
    have hmin : min k (backoff.length - 1) = k :=
      Nat.min_eq_left (Nat.le_sub_one_of_lt hk')
    have hgd : backoffDur backoff ackWait (k + 1) = backoff[k] := by
      rw [backoffDur, if_neg (by simpa using hne)]
      have h1 : k + 1 - 1 = k := rfl
      rw [h1, hmin, List.getD_eq_getElem backoff 0 hk']
    rw [deliveryTime, ih (Nat.le_of_lt hk'), hgd, List.sum_take_succ _ _ hk']
    omega

/-- Claim C1: the redelivery timer that fires next corresponds to the minimum
`nextRetryAt` over all pending entries (so a new never-delivered message is never
delayed behind an older entry's late backoff step), and the `(k+1)`-st delivery of a
message happens exactly the sum of the first `k` backoff steps after its publication;
in particular the first redelivery waits `backoff[0]`, not the last backoff entry. -/
theorem backoff_responsiveness (backoff : List Nat) (ackWait pub k : Nat)
    (hne : backoff ≠ []) (hk : k ≤ backoff.length) :
    deliveryTime backoff ackWait pub k = pub + (backoff.take k).sum ∧
    deliveryTime backoff ackWait pub 1 = pub + backoff.headD 0 ∧
    (∀ ps t, nextTimer ps = some t →
      (∃ p ∈ ps, p.nextRetryAt = t) ∧ ∀ p ∈ ps, t ≤ p.nextRetryAt) := by
  refine ⟨deliveryTime_sum backoff ackWait pub hne k hk, ?_, nextTimer_min⟩
  have h1 : (1 : Nat) ≤ backoff.length := by
    cases backoff with
    | nil => exact absurd rfl hne
    | cons b bs => simp
  rw [deliveryTime_sum backoff ackWait pub hne 1 h1]
  cases backoff with
  | nil => exact absurd rfl hne
  | cons b bs => simp

/-- Witness for claim C1 at the regression test's backoff table `[2, 4]`: the third
delivery of a message published at time 100 happens at `100 + (2 + 4)`, the first
redelivery waits `backoff[0] = 2`, and on a concrete pending set the timer fires at
the minimum `nextRetryAt`. -/
theorem backoff_responsiveness_witness :
    deliveryTime [2, 4] 30 100 2 = 100 + ([2, 4].take 2).sum ∧
    deliveryTime [2, 4] 30 100 1 = 100 + [2, 4].headD 0 ∧
    (∃ p ∈ [(⟨1, 2, 106⟩ : PendingRecord), ⟨2, 1, 102⟩], p.nextRetryAt = 102) := by
  have h := backoff_responsiveness [2, 4] 30 100 2 (by decide) (by decide)
  exact ⟨h.1, h.2.1,
    (h.2.2 [(⟨1, 2, 106⟩ : PendingRecord), ⟨2, 1, 102⟩] 102 (by decide)).1⟩

/-! ## Theorems: consumer lifecycle and work-queue exclusivity -/

/-- Claim C5 (amended): on a stream where the work-queue exclusivity check does not
interfere (non-work-queue retention), a create succeeds iff no consumer with the
identity exists, or the identity is durable and the existing consumer's config is
byte-identical — a named-ephemeral create over an existing consumer always fails,
even with a byte-identical config — and an update succeeds iff a consumer with the
identity exists. -/
theorem consumer_actions_spec (m : StreamModel) (cfg : ConsumerConfig)
    (hret : m.retention ≠ Retention.workQueue) :
    ((addConsumerWithAction m cfg .create).isOk = true ↔
      (findConsumer m.consumers cfg.cname = none ∨
        (cfg.isDurable = true ∧ findConsumer m.consumers cfg.cname = some cfg))) ∧
    ((addConsumerWithAction m cfg .update).isOk = true ↔
      (findConsumer m.consumers cfg.cname).isSome = true) := by
  have hcond : ¬(m.retention = Retention.workQueue ∧
      subjectsOverlapAny cfg.filterSubjects cfg.cname m.consumers = true) :=
    fun hc => hret hc.1
  constructor
  · rw [addConsumerWithAction.eq_def, if_neg hcond]
    cases hf : findConsumer m.consumers cfg.cname with
    | none => simp [Except.isOk, Except.toBool]
    | some existing =>
      by_cases he : cfg.isDurable = true ∧ existing = cfg
      · obtain ⟨hd, hcfg⟩ := he
        subst hcfg
        simp [Except.isOk, Except.toBool, hd]
      · simp [Except.isOk, Except.toBool, he]
  · rw [addConsumerWithAction.eq_def, if_neg hcond]
    cases hf : findConsumer m.consumers cfg.cname with
    | none => simp [Except.isOk, Except.toBool]
    | some existing => simp [Except.isOk, Except.toBool]

/-- Claim C5 counterexample: re-creating the existing named ephemeral `EPH` with a
byte-identical config under action create fails, although the claim says a create over
an existing consumer with a byte-identical config succeeds — exactly the rows the
action tests pin for named ephemerals; and on a work-queue stream even a create with a
brand-new identity (`C4`) fails on filter exclusivity. -/
theorem consumer_actions_counterexample :
    findConsumer [⟨"", "EPH", ["one"], [], 30, 3⟩] "EPH"
        = some ⟨"", "EPH", ["one"], [], 30, 3⟩ ∧
    addConsumerWithAction ⟨.limits, [⟨"", "EPH", ["one"], [], 30, 3⟩]⟩
        ⟨"", "EPH", ["one"], [], 30, 3⟩ .create = .error .consumerAlreadyExists ∧
    findConsumer [⟨"C1", "", ["one"], [], 30, 3⟩] "C4" = none ∧
    (addConsumerWithAction ⟨.workQueue, [⟨"C1", "", ["one"], [], 30, 3⟩]⟩
        ⟨"C4", "", ["one", "two"], [], 30, 3⟩ .create).isOk = false :=
  ⟨rfl, rfl, rfl, rfl⟩

/-- Witness for claim C5: a create of durable `DUR` with a differing config is
rejected while an update succeeds; a byte-identical create over the named ephemeral
`EPH` is rejected; a byte-identical create over durable `DUR` succeeds. -/
theorem consumer_actions_witness :
    (addConsumerWithAction ⟨.limits, [⟨"DUR", "", ["one", "two"], [], 30, 3⟩]⟩
        ⟨"DUR", "", ["one"], [], 30, 3⟩ .create).isOk = false ∧
    (addConsumerWithAction ⟨.limits, [⟨"DUR", "", ["one", "two"], [], 30, 3⟩]⟩
        ⟨"DUR", "", ["one"], [], 30, 3⟩ .update).isOk = true ∧
    (addConsumerWithAction ⟨.limits, [⟨"", "EPH", ["one"], [], 30, 3⟩]⟩
        ⟨"", "EPH", ["one"], [], 30, 3⟩ .create).isOk = false ∧
    (addConsumerWithAction ⟨.limits, [⟨"DUR", "", ["one", "two"], [], 30, 3⟩]⟩
        ⟨"DUR", "", ["one", "two"], [], 30, 3⟩ .create).isOk = true := by
  have h1 := consumer_actions_spec ⟨.limits, [⟨"DUR", "", ["one", "two"], [], 30, 3⟩]⟩
      ⟨"DUR", "", ["one"], [], 30, 3⟩ (by decide)
  have h2 := consumer_actions_spec ⟨.limits, [⟨"", "EPH", ["one"], [], 30, 3⟩]⟩
      ⟨"", "EPH", ["one"], [], 30, 3⟩ (by decide)
  have h3 := consumer_actions_spec ⟨.limits, [⟨"DUR", "", ["one", "two"], [], 30, 3⟩]⟩
      ⟨"DUR", "", ["one", "two"], [], 30, 3⟩ (by decide)
  refine ⟨?_, h1.2.mpr (by decide), ?_, h3.1.mpr (by decide)⟩
  · exact Bool.eq_false_iff.mpr (fun ht => by
      rcases h1.1.mp ht with hc | hc
      · exact absurd hc (by decide)
      · exact absurd hc.2 (by decide))
  · exact Bool.eq_false_iff.mpr (fun ht => by
      rcases h2.1.mp ht with hc | hc
      · exact absurd hc (by decide)
      · exact absurd hc.1 (by decide))

/-- Claim C2 (amended): on a work-queue stream, a create or update fails with
`JSConsumerWQConsumerNotUniqueErr` iff one of its filter subjects collides (can match
a common concrete subject) with a filter of an existing consumer with a different
identity. -/
theorem wq_unique_collision (m : StreamModel) (cfg : ConsumerConfig)
    (action : ConsumerAction) (hret : m.retention = Retention.workQueue) :
    addConsumerWithAction m cfg action = .error .wqConsumerNotUnique ↔
      ∃ o ∈ m.consumers, o.cname ≠ cfg.cname ∧
        filtersCollide cfg.filterSubjects o.filterSubjects = true := by
  by_cases hov : subjectsOverlapAny cfg.filterSubjects cfg.cname m.consumers = true
  · rw [addConsumerWithAction.eq_def, if_pos ⟨hret, hov⟩]
    rw [subjectsOverlapAny, List.any_eq_true] at hov
    obtain ⟨o, ho, hb⟩ := hov
    rw [Bool.and_eq_true, bne_iff_ne] at hb
    exact iff_of_true rfl ⟨o, ho, hb.1, hb.2⟩
  · rw [addConsumerWithAction.eq_def, if_neg (fun hc => hov hc.2)]
    constructor
    · intro h
      exfalso
      cases hf : findConsumer m.consumers cfg.cname with
      | none => cases action <;> rw [hf] at h <;> simp at h
      | some existing =>
        cases action <;> rw [hf] at h
        · by_cases he : cfg.isDurable = true ∧ existing = cfg
          · simp [he] at h
          · simp [he] at h
        · simp at h
        · simp at h
    · rintro ⟨o, ho, hne, hcol⟩
      exfalso
      apply hov
      rw [subjectsOverlapAny, List.any_eq_true]
      refine ⟨o, ho, ?_⟩
      rw [Bool.and_eq_true, bne_iff_ne]
      exact ⟨hne, hcol⟩

/-- Claim C2 counterexample: `foo.bar.*` and `foo.*.bar` are unrelated under
`isEqualOrSubsetMatch` in either direction — so under the claim's stated overlap
predicate the create of `ConsumerB` ought to succeed — yet both filters match the
concrete subject `foo.bar.bar`, and the create fails with
`JSConsumerWQConsumerNotUniqueErr` exactly as the regression test demands. -/
theorem wq_equal_or_subset_counterexample :
    overlapEqualOrSubset ["foo.*.bar"] ["foo.bar.*"] = false ∧
    matchTokens (tokenizeSubject "foo.bar.*") (tokenizeSubject "foo.bar.bar") = true ∧
    matchTokens (tokenizeSubject "foo.*.bar") (tokenizeSubject "foo.bar.bar") = true ∧
    addConsumerWithAction ⟨.workQueue, [⟨"ConsumerA", "", ["foo.bar.*"], [], 30, 3⟩]⟩
        ⟨"ConsumerB", "", ["foo.*.bar"], [], 30, 3⟩ .create = .error .wqConsumerNotUnique :=
  ⟨rfl, rfl, rfl, rfl⟩

/-- Witness for claim C2 at the regression test's stream: creating `ConsumerB` with
filter `foo.*.bar` next to `ConsumerA` with filter `foo.bar.*` fails with the
work-queue uniqueness error. -/
theorem wq_unique_collision_witness :
    addConsumerWithAction ⟨.workQueue, [⟨"ConsumerA", "", ["foo.bar.*"], [], 30, 3⟩]⟩
        ⟨"ConsumerB", "", ["foo.*.bar"], [], 30, 3⟩ .create = .error .wqConsumerNotUnique :=
  (wq_unique_collision ⟨.workQueue, [⟨"ConsumerA", "", ["foo.bar.*"], [], 30, 3⟩]⟩
      ⟨"ConsumerB", "", ["foo.*.bar"], [], 30, 3⟩ .create rfl).mpr
    ⟨⟨"ConsumerA", "", ["foo.bar.*"], [], 30, 3⟩, by decide, by decide, by decide⟩

/-! ## Theorems: pinned-client admission -/

theorem deliverMsg_cons_wrong (m : PinMachine) (r : PullRequest) (rs : List PullRequest)
    (hw : wrongPin m r = true) :
    deliverMsg m (r :: rs) =
      ⟨(r.reply, .status423) :: (deliverMsg m rs).responses, (deliverMsg m rs).delivered,
        (deliverMsg m rs).machine, (deliverMsg m rs).rest⟩ := by
  rw [deliverMsg, if_pos hw]

theorem deliverMsg_cons_match (m : PinMachine) (r : PullRequest) (rs : List PullRequest)
    (pid holder : String) (hw : wrongPin m r = false) (hpin : m.pin = some (pid, holder))
    (hid : r.pinId = some pid) :
    deliverMsg m (r :: rs) = ⟨[], some (r.reply, pid), m, rs⟩ := by
  simp [deliverMsg, hw, hpin, hid]

theorem deliverMsg_cons_skip (m : PinMachine) (r : PullRequest) (rs : List PullRequest)
    (pid holder : String) (hw : wrongPin m r = false) (hpin : m.pin = some (pid, holder))
    (hid : ¬r.pinId = some pid) :
    deliverMsg m (r :: rs) =
      ⟨(deliverMsg m rs).responses, (deliverMsg m rs).delivered, (deliverMsg m rs).machine,
        r :: (deliverMsg m rs).rest⟩ := by
  simp [deliverMsg, hw, hpin, hid]

theorem deliverMsg_cons_defer (m : PinMachine) (r : PullRequest) (rs : List PullRequest)
    (hw : wrongPin m r = false) (hpin : m.pin = none)
    (hprev : m.prevHolder = some r.reply) :
    deliverMsg m (r :: rs) =
      ⟨(deliverMsg m rs).responses, (deliverMsg m rs).delivered, (deliverMsg m rs).machine,
        r :: (deliverMsg m rs).rest⟩ := by
  simp [deliverMsg, hw, hpin, hprev]

theorem deliverMsg_cons_assign (m : PinMachine) (r : PullRequest) (rs : List PullRequest)
    (hw : wrongPin m r = false) (hpin : m.pin = none)
    (hprev : ¬m.prevHolder = some r.reply) :
    deliverMsg m (r :: rs) =
      ⟨[], some (r.reply, pinIdOf m.counter),
        ⟨some (pinIdOf m.counter, r.reply), m.counter + 1, m.prevHolder,
          pinIdOf m.counter :: m.issued⟩, rs⟩ := by
  simp [deliverMsg, hw, hpin, hprev]

theorem pinIdOf_length (n : Nat) : (pinIdOf n).length = n + 1 := by
  simp [pinIdOf, String.length]

/-- Claim C3: with an active pin, a delivered message goes only to a request holding
the current pin id and carries that (nonempty) pin id as its `Nats-Pin-Id` header;
requests without the pin receive nothing while the pin is active; and a pull request
carrying a non-matching pin id is answered with status 423. -/
theorem pinned_delivery_only_to_holder (m : PinMachine) (q : List PullRequest)
    (pid holder : String) (hpin : m.pin = some (pid, holder)) (hwf : PinWF m) :
    (∀ reply header, (deliverMsg m q).delivered = some (reply, header) →
      header = pid ∧ header ≠ "" ∧ ∃ r ∈ q, r.reply = reply ∧ r.pinId = some pid) ∧
    (∀ r ∈ q, r.pinId = none → r ∈ (deliverMsg m q).rest) ∧
    (∀ r rid, r.pinId = some rid → rid ≠ pid →
      enqueueRequest m q r = (some .status423, q)) := by
  have hne : pid ≠ "" := hwf.2 (pid, holder) (Option.mem_def.mpr hpin)
  refine ⟨?_, ?_, ?_⟩
  · induction q with
    | nil =>
      intro reply header h
      simp [deliverMsg] at h
    | cons r rs ih =>
      intro reply header h
      by_cases hw : wrongPin m r = true
      · rw [deliverMsg_cons_wrong m r rs hw] at h
        obtain ⟨h1, h2, rr, hrr, hrep, hpid⟩ := ih reply header h
        exact ⟨h1, h2, rr, List.mem_cons_of_mem r hrr, hrep, hpid⟩
      · have hw' : wrongPin m r = false := by simpa using hw
        by_cases hid : r.pinId = some pid
        · rw [deliverMsg_cons_match m r rs pid holder hw' hpin hid] at h
          simp only [Option.some.injEq, Prod.mk.injEq] at h
          obtain ⟨h1, h2⟩ := h
          subst h1
          subst h2
          exact ⟨rfl, hne, r, List.mem_cons_self r rs, rfl, hid⟩
        · rw [deliverMsg_cons_skip m r rs pid holder hw' hpin hid] at h
          obtain ⟨h1, h2, rr, hrr, hrep, hpid⟩ := ih reply header h
          exact ⟨h1, h2, rr, List.mem_cons_of_mem r hrr, hrep, hpid⟩
  · induction q with
    | nil =>
      intro r hr
      simp at hr
    | cons r rs ih =>
      intro r' hr' hnone
      by_cases hw : wrongPin m r = true
      · rw [deliverMsg_cons_wrong m r rs hw]
        rcases List.mem_cons.mp hr' with rfl | hmem
        · exact absurd hw (by simp [wrongPin, hnone])
        · exact ih r' hmem hnone
      · have hw' : wrongPin m r = false := by simpa using hw
        by_cases hid : r.pinId = some pid
        · rw [deliverMsg_cons_match m r rs pid holder hw' hpin hid]
          rcases List.mem_cons.mp hr' with rfl | hmem
          · rw [hnone] at hid
            exact absurd hid (by simp)
          · exact hmem
        · rw [deliverMsg_cons_skip m r rs pid holder hw' hpin hid]
          rcases List.mem_cons.mp hr' with rfl | hmem
          · exact List.mem_cons_self _ _
          · exact List.mem_cons_of_mem r (ih r' hmem hnone)
  · intro r rid hrid hne'
    rw [enqueueRequest, if_pos]
    simp [wrongPin, hrid, hpin, hne']

/-- Witness for claim C3: with the pin `p` held by request `ONE`, the message goes to
`ONE` with header `p`, the unpinned request `TWO` keeps waiting, and a request with
pin id `WRONG` is answered 423. -/
theorem pinned_delivery_witness :
    (deliverMsg ⟨some ("p", "ONE"), 1, none, ["p"]⟩
        [⟨"ONE", some "p"⟩, ⟨"TWO", none⟩]).delivered = some ("ONE", "p") ∧
    ("p" : String) ≠ "" ∧
    (⟨"TWO", none⟩ : PullRequest) ∈ (deliverMsg ⟨some ("p", "ONE"), 1, none, ["p"]⟩
        [⟨"ONE", some "p"⟩, ⟨"TWO", none⟩]).rest ∧
    enqueueRequest ⟨some ("p", "ONE"), 1, none, ["p"]⟩
        [⟨"ONE", some "p"⟩, ⟨"TWO", none⟩] ⟨"THREE", some "WRONG"⟩
      = (some .status423, [⟨"ONE", some "p"⟩, ⟨"TWO", none⟩]) := by
  have h := pinned_delivery_only_to_holder ⟨some ("p", "ONE"), 1, none, ["p"]⟩
      [⟨"ONE", some "p"⟩, ⟨"TWO", none⟩] "p" "ONE" rfl
      ⟨by decide, fun pc hpc => by
        rw [Option.mem_def, Option.some.injEq] at hpc
        subst hpc
        decide⟩
  exact ⟨rfl, (h.1 "ONE" "p" rfl).2.1, h.2.1 ⟨"TWO", none⟩ (by simp) rfl,
    h.2.2 ⟨"THREE", some "WRONG"⟩ "WRONG" rfl (by decide)⟩

theorem deliverMsg_nopin (mm : PinMachine) (hpin : mm.pin = none) (q : List PullRequest) :
    (∀ reply header, (deliverMsg mm q).delivered = some (reply, header) →
      some reply ≠ mm.prevHolder ∧ header = pinIdOf mm.counter) ∧
    ((∀ r ∈ q, some r.reply = mm.prevHolder) → (deliverMsg mm q).delivered = none) ∧
    (∀ reply res, (reply, res) ∈ (deliverMsg mm q).responses → res = .status423) := by
  refine ⟨?_, ?_, ?_⟩
  · induction q with
    | nil =>
      intro reply header h
      simp [deliverMsg] at h
    | cons r rs ih =>
      intro reply header h
      by_cases hw : wrongPin mm r = true
      · rw [deliverMsg_cons_wrong mm r rs hw] at h
        exact ih reply header h
      · have hw' : wrongPin mm r = false := by simpa using hw
        by_cases hprev : mm.prevHolder = some r.reply
        · rw [deliverMsg_cons_defer mm r rs hw' hpin hprev] at h
          exact ih reply header h
        · rw [deliverMsg_cons_assign mm r rs hw' hpin hprev] at h
          simp only [Option.some.injEq, Prod.mk.injEq] at h
          obtain ⟨h1, h2⟩ := h
          subst h1
          subst h2
          exact ⟨fun hc => hprev hc.symm, rfl⟩
  · induction q with
    | nil =>
      intro
      simp [deliverMsg]
    | cons r rs ih =>
      intro hall
      by_cases hw : wrongPin mm r = true
      · rw [deliverMsg_cons_wrong mm r rs hw]
        exact ih (fun r' hr' => hall r' (List.mem_cons_of_mem r hr'))
      · have hw' : wrongPin mm r = false := by simpa using hw
        have hprev : mm.prevHolder = some r.reply :=
          (hall r (List.mem_cons_self r rs)).symm
        rw [deliverMsg_cons_defer mm r rs hw' hpin hprev]
        exact ih (fun r' hr' => hall r' (List.mem_cons_of_mem r hr'))
  · induction q with
    | nil =>
      intro reply res h
      simp [deliverMsg] at h
    | cons r rs ih =>
      intro reply res h
      by_cases hw : wrongPin mm r = true
      · rw [deliverMsg_cons_wrong mm r rs hw] at h
        rcases List.mem_cons.mp h with heq | hmem
        · exact congrArg Prod.snd heq
        · exact ih reply res hmem
      · have hw' : wrongPin mm r = false := by simpa using hw
        by_cases hprev : mm.prevHolder = some r.reply
        · rw [deliverMsg_cons_defer mm r rs hw' hpin hprev] at h
          exact ih reply res h
        · rw [deliverMsg_cons_assign mm r rs hw' hpin hprev] at h
          simp at h

/-- Claim C4: after a pin is cleared, the next delivered request differs from the old
holder and gets a pin id differing from every previously issued one; if only the old
holder is waiting, re-assignment is deferred (nothing is delivered); and the old
holder's next response — like every plain response produced while re-assigning — is a
status-423 message. -/
theorem unpin_reassignment (m : PinMachine) (q : List PullRequest) (pid holder : String)
    (hpin : m.pin = some (pid, holder)) (hwf : PinWF m) :
    (unpinMachine m).pin = none ∧ (unpinMachine m).prevHolder = some holder ∧
    (∀ reply header, (deliverMsg (unpinMachine m) q).delivered = some (reply, header) →
      reply ≠ holder ∧ header ∉ m.issued ∧ header ≠ "") ∧
    ((∀ r ∈ q, r.reply = holder) → (deliverMsg (unpinMachine m) q).delivered = none) ∧
    (∀ reply res, (reply, res) ∈ (deliverMsg (unpinMachine m) q).responses →
      res = .status423) := by
  have hm : unpinMachine m = ⟨none, m.counter, some holder, m.issued⟩ := by
    simp [unpinMachine, hpin]
  have hnp := deliverMsg_nopin (unpinMachine m) (by rw [hm]) q
  refine ⟨by rw [hm], by rw [hm], ?_, ?_, hnp.2.2⟩
  · intro reply header h
    obtain ⟨hph, hhd⟩ := hnp.1 reply header h
    simp only [hm] at hph hhd
    refine ⟨?_, ?_, ?_⟩
    · intro hc
      exact hph (by rw [hc])
    · rw [hhd]
      intro hmem
      have hlen := hwf.1 _ hmem
      rw [pinIdOf_length] at hlen
      omega
    · rw [hhd]
      intro hempty
      have h0 := pinIdOf_length m.counter
      rw [hempty] at h0
      simp [String.length] at h0
  · intro hall
    apply hnp.2.1
    intro r hr
    rw [hm]
    simp [hall r hr]

/-- Witness for claim C4: after unpinning `p` from holder `ONE`, the next message is
delivered to the different request `TWO` with the fresh pin id `pp` (not previously
issued, nonempty), the old holder receives a 423 response, and when only the old
holder waits nothing is delivered. -/
theorem unpin_reassignment_witness :
    (deliverMsg (unpinMachine ⟨some ("p", "ONE"), 1, none, ["p"]⟩)
        [⟨"ONE", some "p"⟩, ⟨"TWO", none⟩]).delivered = some ("TWO", "pp") ∧
    ("TWO" : String) ≠ "ONE" ∧ ("pp" : String) ∉ ["p"] ∧ ("pp" : String) ≠ "" ∧
    ("ONE", AdmitResult.status423) ∈
      (deliverMsg (unpinMachine ⟨some ("p", "ONE"), 1, none, ["p"]⟩)
        [⟨"ONE", some "p"⟩, ⟨"TWO", none⟩]).responses ∧
    (deliverMsg (unpinMachine ⟨some ("p", "ONE"), 1, none, ["p"]⟩)
        [⟨"ONE", none⟩]).delivered = none := by
  have h := unpin_reassignment ⟨some ("p", "ONE"), 1, none, ["p"]⟩
      [⟨"ONE", some "p"⟩, ⟨"TWO", none⟩] "p" "ONE" rfl
      ⟨by decide, fun pc hpc => by
        rw [Option.mem_def, Option.some.injEq] at hpc
        subst hpc
        decide⟩
  have h2 := unpin_reassignment ⟨some ("p", "ONE"), 1, none, ["p"]⟩
      [⟨"ONE", none⟩] "p" "ONE" rfl
      ⟨by decide, fun pc hpc => by
        rw [Option.mem_def, Option.some.injEq] at hpc
        subst hpc
        decide⟩
  obtain ⟨hd1, hd2, hd3⟩ := h.2.2.1 "TWO" "pp" rfl
  exact ⟨rfl, hd1, hd2, hd3, by decide, h2.2.2.2.1 (by decide)⟩

/-! ## Theorems: overflow admission, pedantic validation, unpin admin -/

theorem serveNext_cons (np na : Nat) (x : OverflowReq) (xs : List OverflowReq) :
    serveNext np na (x :: xs) =
      if overflowEligible np na x then (some x, xs)
      else ((serveNext np na xs).1, x :: (serveNext np na xs).2) := rfl

/-- Claim C6: on an overflow consumer, a request is served only when every set
threshold is met by the current counters; an ineligible request stays in the queue;
once a state change makes a waiting request the first eligible one it is served; and
a request with no thresholds is always eligible. -/
theorem overflow_admission (np na : Nat) (q : List OverflowReq) :
    (∀ r, (serveNext np na q).1 = some r →
      r ∈ q ∧ overflowEligible np na r = true) ∧
    (∀ r ∈ q, overflowEligible np na r = false → r ∈ (serveNext np na q).2) ∧
    (∀ q1 r q2, q = q1 ++ r :: q2 →
      (∀ r' ∈ q1, overflowEligible np na r' = false) →
      overflowEligible np na r = true →
      serveNext np na q = (some r, q1 ++ q2)) ∧
    (∀ r : OverflowReq, r.minPending = none → r.minAckPending = none →
      overflowEligible np na r = true) := by
  refine ⟨?_, ?_, ?_, ?_⟩
  · induction q with
    | nil =>
      intro r h
      simp [serveNext] at h
    | cons x xs ih =>
      intro r h
      rw [serveNext] at h
      by_cases he : overflowEligible np na x = true
      · rw [if_pos he] at h
        simp only [Option.some.injEq] at h
        subst h
        exact ⟨List.mem_cons_self x xs, he⟩
      · rw [if_neg he] at h
        simp only at h
        obtain ⟨hm, helig⟩ := ih r h
        exact ⟨List.mem_cons_of_mem x hm, helig⟩
  · induction q with
    | nil =>
      intro r hr
      simp at hr
    | cons x xs ih =>
      intro r hr hin
      rw [serveNext]
      by_cases he : overflowEligible np na x = true
      · rw [if_pos he]
        rcases List.mem_cons.mp hr with rfl | hmem
        · rw [hin] at he
          exact absurd he (by simp)
        · exact hmem
      · rw [if_neg he]
        simp only
        rcases List.mem_cons.mp hr with rfl | hmem
        · exact List.mem_cons_self _ _
        · exact List.mem_cons_of_mem x (ih r hmem hin)
  · intro q1
    induction q1 generalizing q with
    | nil =>
      intro r q2 hq hall helig
      subst hq
      rw [List.nil_append, List.nil_append, serveNext_cons, if_pos helig]
    | cons x q1' ih =>
      intro r q2 hq hall helig
      subst hq
      have hx : overflowEligible np na x = false := hall x (List.mem_cons_self x _)
      rw [List.cons_append, serveNext_cons, if_neg (by simp [hx]),
        ih (q1' ++ r :: q2) r q2 rfl
          (fun r' hr' => hall r' (List.mem_cons_of_mem x hr')) helig]
      rfl
  · intro r h1 h2
    simp [overflowEligible, h1, h2]

/-- Claim C8: with the `pedantic` request flag set, any config whose effective values
would come from stream-level `ConsumerLimits` defaults or server-applied defaults
(backoff without ack wait, batch capped by `max_request_batch`) is rejected with an
error whose message contains the substring `pedantic`; without the flag the identical
config is accepted with the defaults applied. -/
theorem pedantic_rejects_defaults (lim : StreamConsumerLimits) (srv : Option Nat)
    (c : PedanticConfig) :
    (needsDefault lim srv c = true →
      checkPedantic true lim srv c = .error pedanticErrMsg ∧
      "pedantic".data <:+: pedanticErrMsg.data) ∧
    checkPedantic false lim srv c = .ok (applyDefaults lim srv c) := by
  constructor
  · intro hn
    refine ⟨?_, ?_⟩
    · rw [checkPedantic, if_pos (by simp [hn])]
    · exact ⟨[], (" mode: default values would be applied").data, rfl⟩
  · rw [checkPedantic, if_neg (by simp)]

/-- Claim C9: the unpin admin operation clears the pin of an existing group and
returns no error, and returns the typed errors for a missing stream, a missing
consumer, an empty group name, a malformed group name, and a group that is not among
the consumer's priority groups. -/
theorem unpin_admin_spec (ctx : JSContext) (s c g : String) :
    (lookupStream ctx s = none → unpinAdmin ctx s c g = .error .streamNotFound) ∧
    (∀ st, lookupStream ctx s = some st → findConsumer st.consumers c = none →
      unpinAdmin ctx s c g = .error .consumerNotFound) ∧
    (∀ st cns, lookupStream ctx s = some st → findConsumer st.consumers c = some cns →
      g = "" → unpinAdmin ctx s c g = .error .invalidJSON) ∧
    (∀ st cns, lookupStream ctx s = some st → findConsumer st.consumers c = some cns →
      g ≠ "" → validGroupName g = false →
      unpinAdmin ctx s c g = .error .invalidGroupName) ∧
    (∀ st cns, lookupStream ctx s = some st → findConsumer st.consumers c = some cns →
      g ≠ "" → validGroupName g = true → g ∉ cns.priorityGroups →
      unpinAdmin ctx s c g = .error .invalidPriorityGroup) ∧
    (∀ st cns, lookupStream ctx s = some st → findConsumer st.consumers c = some cns →
      g ≠ "" → validGroupName g = true → g ∈ cns.priorityGroups →
      unpinAdmin ctx s c g = .ok (clearPin ctx s c g) ∧
      ∀ e ∈ (clearPin ctx s c g).pins,
        ¬(e.stream = s ∧ e.consumer = c ∧ e.group = g)) := by
  refine ⟨?_, ?_, ?_, ?_, ?_, ?_⟩
  · intro h
    simp [unpinAdmin, h]
  · intro st h1 h2
    simp [unpinAdmin, h1, h2]
  · intro st cns h1 h2 h3
    simp [unpinAdmin, h1, h2, h3]
  · intro st cns h1 h2 h3 h4
    simp [unpinAdmin, h1, h2, h3, h4]
  · intro st cns h1 h2 h3 h4 h5
    simp [unpinAdmin, h1, h2, h3, h4, h5]
  · intro st cns h1 h2 h3 h4 h5
    refine ⟨by simp [unpinAdmin, h1, h2, h3, h4, h5], ?_⟩
    intro e he
    rintro ⟨he1, he2, he3⟩
    have := (List.mem_filter.mp he).2
    rw [he1, he2, he3] at this
    simp at this

/-- Witness for claim C6 at the spec's concrete scenario: a request with
`min_pending = 10` waits on a backlog of 3 and is served once the backlog reaches
103; a plain request is always eligible. -/
theorem overflow_admission_witness :
    (⟨"r", some 10, none⟩ : OverflowReq) ∈ (serveNext 3 0 [⟨"r", some 10, none⟩]).2 ∧
    serveNext 103 0 [⟨"r", some 10, none⟩] = (some ⟨"r", some 10, none⟩, []) ∧
    overflowEligible 3 0 ⟨"plain", none, none⟩ = true := by
  have h3 := overflow_admission 3 0 [⟨"r", some 10, none⟩]
  have h103 := overflow_admission 103 0 [⟨"r", some 10, none⟩]
  exact ⟨h3.2.1 ⟨"r", some 10, none⟩ (by decide) (by decide),
    h103.2.2.1 [] ⟨"r", some 10, none⟩ [] rfl (by decide) (by decide),
    h3.2.2.2 ⟨"plain", none, none⟩ rfl rfl⟩

/-- Witness for claim C8 at the test's stream limits (inactive threshold and max ack
pending set): the default consumer config is rejected in pedantic mode with a message
containing `pedantic` and accepted without the flag. -/
theorem pedantic_rejects_defaults_witness :
    checkPedantic true ⟨some 60, some 100⟩ none ⟨none, none, [], none, none⟩
        = .error pedanticErrMsg ∧
    "pedantic".data <:+: pedanticErrMsg.data ∧
    checkPedantic false ⟨some 60, some 100⟩ none ⟨none, none, [], none, none⟩
        = .ok (applyDefaults ⟨some 60, some 100⟩ none ⟨none, none, [], none, none⟩) := by
  have h := pedantic_rejects_defaults ⟨some 60, some 100⟩ none ⟨none, none, [], none, none⟩
  obtain ⟨he, hi⟩ := h.1 (by decide)
  exact ⟨he, hi, h.2⟩

/-- Witness for claim C9 at the test's concrete broker state: each error case of
`TestJetStreamConsumerUnpin` and the successful unpin of group `A`. -/
theorem unpin_admin_witness :
    unpinAdmin ⟨[("TEST", ⟨.limits, [⟨"C", "", ["foo.>"], ["A"], 30, 3⟩]⟩)],
        [⟨"TEST", "C", "A", "p"⟩]⟩ "NOT_EXIST" "C" "A" = .error .streamNotFound ∧
    unpinAdmin ⟨[("TEST", ⟨.limits, [⟨"C", "", ["foo.>"], ["A"], 30, 3⟩]⟩)],
        [⟨"TEST", "C", "A", "p"⟩]⟩ "TEST" "NOT_EXIST" "A" = .error .consumerNotFound ∧
    unpinAdmin ⟨[("TEST", ⟨.limits, [⟨"C", "", ["foo.>"], ["A"], 30, 3⟩]⟩)],
        [⟨"TEST", "C", "A", "p"⟩]⟩ "TEST" "C" "" = .error .invalidJSON ∧
    unpinAdmin ⟨[("TEST", ⟨.limits, [⟨"C", "", ["foo.>"], ["A"], 30, 3⟩]⟩)],
        [⟨"TEST", "C", "A", "p"⟩]⟩ "TEST" "C" "group    name" = .error .invalidGroupName ∧
    unpinAdmin ⟨[("TEST", ⟨.limits, [⟨"C", "", ["foo.>"], ["A"], 30, 3⟩]⟩)],
        [⟨"TEST", "C", "A", "p"⟩]⟩ "TEST" "C" "B" = .error .invalidPriorityGroup ∧
    unpinAdmin ⟨[("TEST", ⟨.limits, [⟨"C", "", ["foo.>"], ["A"], 30, 3⟩]⟩)],
        [⟨"TEST", "C", "A", "p"⟩]⟩ "TEST" "C" "A"
      = .ok (clearPin ⟨[("TEST", ⟨.limits, [⟨"C", "", ["foo.>"], ["A"], 30, 3⟩]⟩)],
          [⟨"TEST", "C", "A", "p"⟩]⟩ "TEST" "C" "A") := by
  refine ⟨?_, ?_, ?_, ?_, ?_, ?_⟩
  · exact (unpin_admin_spec _ "NOT_EXIST" "C" "A").1 rfl
  · exact (unpin_admin_spec _ "TEST" "NOT_EXIST" "A").2.1
      ⟨.limits, [⟨"C", "", ["foo.>"], ["A"], 30, 3⟩]⟩ rfl rfl
  · exact (unpin_admin_spec _ "TEST" "C" "").2.2.1
      ⟨.limits, [⟨"C", "", ["foo.>"], ["A"], 30, 3⟩]⟩ ⟨"C", "", ["foo.>"], ["A"], 30, 3⟩ rfl rfl rfl
  · exact (unpin_admin_spec _ "TEST" "C" "group    name").2.2.2.1
      ⟨.limits, [⟨"C", "", ["foo.>"], ["A"], 30, 3⟩]⟩ ⟨"C", "", ["foo.>"], ["A"], 30, 3⟩ rfl rfl
      (by decide) (by decide)
  · exact (unpin_admin_spec _ "TEST" "C" "B").2.2.2.2.1
      ⟨.limits, [⟨"C", "", ["foo.>"], ["A"], 30, 3⟩]⟩ ⟨"C", "", ["foo.>"], ["A"], 30, 3⟩ rfl rfl
      (by decide) (by decide) (by decide)
  · exact ((unpin_admin_spec ⟨[("TEST", ⟨.limits, [⟨"C", "", ["foo.>"], ["A"], 30, 3⟩]⟩)],
        [⟨"TEST", "C", "A", "p"⟩]⟩ "TEST" "C" "A").2.2.2.2.2
      ⟨.limits, [⟨"C", "", ["foo.>"], ["A"], 30, 3⟩]⟩ ⟨"C", "", ["foo.>"], ["A"], 30, 3⟩ rfl rfl
      (by decide) (by decide) (by decide)).1

end NatsConsumer
